import Mathlib

set_option maxRecDepth 100000

/-!
Shallow embedding of the tornado-svm program (src/error.rs, src/merkle_tree.rs,
src/utils.rs, src/verifier.rs, src/processor.rs) and proofs about the claims of
the specification.

Conventions of the embedding:
* a Rust `[u8; 32]` byte array is a `List Nat` of length 32 whose entries are
  byte values (index 0 is the first array element, as in the source);
* a Rust `[u64; 4]` limb vector is a `List Nat` of length 4;
* machine integers are `Nat`, with `% 2 ^ 64` / `% 256` written out exactly
  where the source wraps or truncates;
* fallible Rust functions returning `Result<_, ProgramError>` become
  `Except TornadoError _`;
* a Rust panic (an out-of-contract `copy_from_slice`, or an asserting library
  constructor) is modelled as `Option.none` of an `Option` result.
-/

/-- Error enum of src/error.rs, in declaration order. -/
inductive TornadoError where
  | InvalidInstructionData
  | InvalidAccountData
  | AccountNotInitialized
  | AccountAlreadyInitialized
  | InvalidMerkleTreeState
  | MerkleTreeFull
  | InvalidCommitment
  | CommitmentAlreadyExists
  | InvalidNullifierHash
  | NullifierAlreadySpent
  | InvalidMerkleRoot
  | InvalidProof
  | InvalidFee
  | InvalidRecipient
  | InvalidRelayer
  | InvalidAmount
  | InsufficientFunds
  deriving DecidableEq, Repr

/-- ROOT_HISTORY_SIZE from src/state.rs. -/
def ROOT_HISTORY_SIZE : Nat := 30

/-- FIELD_SIZE constant of src/merkle_tree.rs (byte array, index 0 first). -/
def FIELD_SIZE : List Nat :=
  [0x30, 0x64, 0x4e, 0x72, 0xe1, 0x31, 0xa0, 0x29,
   0xb8, 0x5d, 0x12, 0x66, 0xb4, 0x1b, 0x4b, 0x30,
   0x73, 0xbe, 0x54, 0x46, 0xc3, 0x36, 0xb1, 0x0b,
   0x51, 0x10, 0x5a, 0xf4, 0x00, 0x00, 0x00, 0x01]

/-- ZERO_VALUE constant of src/merkle_tree.rs. -/
def ZERO_VALUE : List Nat :=
  [0x2f, 0xe5, 0x4c, 0x60, 0xd3, 0xac, 0xab, 0xf3,
   0x34, 0x3a, 0x35, 0xb6, 0xeb, 0xa1, 0x5d, 0xb4,
   0x82, 0x1b, 0x34, 0x0f, 0x76, 0xe7, 0x41, 0xe2,
   0x24, 0x96, 0x85, 0xed, 0x48, 0x99, 0xaf, 0x6c]

/-- The all-zero 32-byte value. -/
def z32 : List Nat := List.replicate 32 0

/-- Core of is_within_field: the source iterates `for i in (0..32).rev()`,
so both lists are passed reversed (most significant byte first). -/
def isWithinFieldGo : List Nat → List Nat → Bool
  | a :: as, b :: bs =>
    if a < b then true
    else if a > b then false
    else isWithinFieldGo as bs
  | _, _ => true

/-- is_within_field from src/merkle_tree.rs: byte-reversed lexicographic
comparison of `value` against FIELD_SIZE, returning true on equality. -/
def is_within_field (value : List Nat) : Bool :=
  isWithinFieldGo value.reverse FIELD_SIZE.reverse

/-- Core of mod_field_size: iterates bytes most-significant-first with a carry,
so input lists are reversed; `as u8` truncation becomes `% 256`. -/
def modFieldGo : List Nat → List Nat → Nat → List Nat
  | v :: vs, f :: fs, carry =>
    let diff := v + carry * 256
    if f ≤ diff then (diff - f) % 256 :: modFieldGo vs fs 1
    else diff % 256 :: modFieldGo vs fs 0
  | _, _, _ => []

/-- mod_field_size from src/merkle_tree.rs (the simplified byte-wise
conditional subtraction, not a real modular reduction). -/
def mod_field_size (value : List Nat) : List Nat :=
  (modFieldGo value.reverse FIELD_SIZE.reverse 0).reverse

/-- One u64 limb assembled from 8 bytes, as in bytes_to_field_element
(bitwise or of disjoint shifted bytes equals the sum). -/
def limbOf (bytes : List Nat) (i : Nat) : Nat :=
  (List.range 8).foldl (fun acc j => acc + bytes.getD (8 * i + j) 0 * 2 ^ (8 * j)) 0

/-- bytes_to_field_element from src/merkle_tree.rs. -/
def bytes_to_field_element (bytes : List Nat) : Except TornadoError (List Nat) :=
  if is_within_field bytes = false then .error .InvalidMerkleTreeState
  else .ok ((List.range 4).map (limbOf bytes))

/-- field_element_to_bytes from src/merkle_tree.rs: byte `8*i + j` is
`(fe[i] >> (j*8)) & 0xFF`. -/
def field_element_to_bytes (fe : List Nat) : List Nat :=
  (List.range 32).map (fun idx => fe.getD (idx / 8) 0 / 2 ^ (8 * (idx % 8)) % 256)

/-- Limb-wise addition with carry, from field_add's loop of overflowing adds. -/
def addLimbs : List Nat → List Nat → Nat → List Nat
  | a :: as, b :: bs, c => (a + b + c) % 2 ^ 64 :: addLimbs as bs ((a + b + c) / 2 ^ 64)
  | _, _, _ => []

/-- The carry left over after the addition loop of field_add. -/
def addCarry : List Nat → List Nat → Nat → Nat
  | a :: as, b :: bs, c => addCarry as bs ((a + b + c) / 2 ^ 64)
  | _, _, c => c

/-- field_mod from src/merkle_tree.rs; the unwrap_or gives the zero element. -/
def field_mod (a : List Nat) : List Nat :=
  match bytes_to_field_element (mod_field_size (field_element_to_bytes a)) with
  | .ok fe => fe
  | .error _ => [0, 0, 0, 0]

/-- field_add from src/merkle_tree.rs. -/
def field_add (a b : List Nat) : List Nat :=
  let result := addLimbs a b 0
  if 0 < addCarry a b 0 ∨ is_within_field (field_element_to_bytes result) = false then
    field_mod result
  else result

/-- Inner loop of field_mul's schoolbook multiplication: one row, byte `aByte`
times all of `bBytes`, accumulating into `res` starting at `idx`, with the
final carry of the row dropped (exactly as in the source, where the guard
`idx < 64` leaves everything untouched when it fails). -/
def mulRow (aByte : Nat) : List Nat → List Nat → Nat → Nat → List Nat
  | [], res, _, _ => res
  | b :: bs, res, idx, carry =>
    if idx < 64 then
      let prod := aByte * b + res.getD idx 0 + carry
      mulRow aByte bs (res.set idx (prod % 256)) (idx + 1) (prod / 256)
    else mulRow aByte bs res (idx + 1) carry

/-- Outer loop of field_mul's schoolbook multiplication. -/
def mulLoop : List Nat → List Nat → List Nat → Nat → List Nat
  | [], _, res, _ => res
  | a :: as, bb, res, i => mulLoop as bb (mulRow a bb res i 0) (i + 1)

/-- field_mul from src/merkle_tree.rs: schoolbook product into a 64-byte
buffer, truncation to the low 32 bytes, conditional mod_field_size, then
bytes_to_field_element (which can fail, making field_mul fallible). -/
def field_mul (a b : List Nat) : Except TornadoError (List Nat) :=
  let ab := field_element_to_bytes a
  let bb := field_element_to_bytes b
  let res := mulLoop ab bb (List.replicate 64 0) 0
  let reduced := res.take 32
  let reduced2 := if is_within_field reduced = false then mod_field_size reduced else reduced
  bytes_to_field_element reduced2

/-- field_cube from src/merkle_tree.rs: a squared, then a times the square. -/
def field_cube (a : List Nat) : Except TornadoError (List Nat) :=
  (field_mul a a).bind (fun a2 => field_mul a a2)

/-- MIMC_CONSTANTS from src/merkle_tree.rs, each row as limbs [l0, l1, l2, l3]
with l0 the least significant limb (as consumed by field_element_to_bytes). -/
def MIMC_CONSTANTS : List (List Nat) :=
  [[0x243f6a8885a308d3, 0x13198a2e03707344, 0xa4093822299f31d0, 0x082efa98ec4e6c89],
   [0x452821e638d01377, 0xbe5466cf34e90c6c, 0xc0ac29b7c97c50dd, 0x3f84d5b5b5470917],
   [0x9216d5d98979fb1b, 0xd1310ba698dfb5ac, 0x2ffd72dbd01adfb7, 0xb8e1afed6a267e96],
   [0xba7c9045f12c7f99, 0x24a19947b3916cf7, 0x0801f2e2858efc16, 0x636920d871574e69],
   [0xa458fea3f4933d7e, 0x0d95748f728eb658, 0x718bcd5882154aee, 0x7b54a41dc25a59b5],
   [0x9c30d5392af26013, 0xc5d1b023286085f0, 0xca417918b8db38ef, 0x8e79dcb0603a180e],
   [0x6c9e0e8bb01e8a3e, 0xd71577c1bd314b27, 0x78af2fda55605c60, 0xe65525f3aa55ab94],
   [0xaa55ab94aaaa5555, 0x55aa55aa55aa55aa, 0xaa55ab94aaaa5555, 0x55aa55aa55aa55aa],
   [0x5aa55aa55aa55aa5, 0xa55aa55aa55aa55a, 0x5aa55aa55aa55aa5, 0xa55aa55aa55aa55a],
   [0xaaaaaaaaaaaaaaaa, 0xaaaaaaaaaaaaaaaa, 0xaaaaaaaaaaaaaaaa, 0xaaaaaaaaaaaaaaaa],
   [0x5555555555555555, 0x5555555555555555, 0x5555555555555555, 0x5555555555555555],
   [0xaaaaaaaaaaaaaaaa, 0x5555555555555555, 0xaaaaaaaaaaaaaaaa, 0x5555555555555555],
   [0x5555555555555555, 0xaaaaaaaaaaaaaaaa, 0x5555555555555555, 0xaaaaaaaaaaaaaaaa],
   [0x1111111111111111, 0x2222222222222222, 0x3333333333333333, 0x4444444444444444],
   [0x5555555555555555, 0x6666666666666666, 0x7777777777777777, 0x8888888888888888],
   [0x9999999999999999, 0xaaaaaaaaaaaaaaaa, 0xbbbbbbbbbbbbbbbb, 0xcccccccccccccccc],
   [0xdddddddddddddddd, 0xeeeeeeeeeeeeeeee, 0xffffffffffffffff, 0x0000000000000000],
   [0x1234567890abcdef, 0xfedcba0987654321, 0x1234567890abcdef, 0xfedcba0987654321],
   [0x0123456789abcdef, 0xfedcba9876543210, 0x0123456789abcdef, 0xfedcba9876543210],
   [0x0000000000000000, 0x0000000000000000, 0x0000000000000000, 0x0000000000000000]]

/-- The MiMC round loop: add the round constant, then cube. -/
def mimcRounds : List (List Nat) → List Nat → Except TornadoError (List Nat)
  | [], state => .ok state
  | c :: cs, state => (field_cube (field_add state c)).bind (mimcRounds cs)

/-- mimc_hash from src/merkle_tree.rs: state starts as left + right, 20 rounds
of add-constant-and-cube, then right is added once more. -/
def mimc_hash (left right : List Nat) : Except TornadoError (List Nat) :=
  (mimcRounds MIMC_CONSTANTS (field_add left right)).bind
    (fun state => .ok (field_add state right))

/-- hash_left_right from src/merkle_tree.rs. -/
def hash_left_right (left right : List Nat) : Except TornadoError (List Nat) :=
  if is_within_field left = false ∨ is_within_field right = false then
    .error .InvalidMerkleTreeState
  else
    (bytes_to_field_element left).bind fun left_fe =>
    (bytes_to_field_element right).bind fun right_fe =>
    (mimc_hash left_fe right_fe).bind fun result_fe =>
    .ok (field_element_to_bytes result_fe)

/-- get_zero_value from src/merkle_tree.rs: ZERO_VALUE at level 0, three
hard-coded levels, and a fallback to ZERO_VALUE for every other level. -/
def get_zero_value (level : Nat) : List Nat :=
  if level = 0 then ZERO_VALUE
  else match level with
    | 1 => [0x25, 0x6a, 0x61, 0x35, 0x77, 0x7e, 0xee, 0x2f,
            0xd2, 0x6f, 0x54, 0xb8, 0xb7, 0x03, 0x7a, 0x25,
            0x43, 0x9d, 0x52, 0x35, 0xca, 0xee, 0x22, 0x41,
            0x54, 0x18, 0x6d, 0x2b, 0x8a, 0x52, 0xe3, 0x1d]
    | 2 => [0x11, 0x51, 0x94, 0x98, 0x95, 0xe8, 0x2a, 0xb1,
            0x99, 0x24, 0xde, 0x92, 0xc4, 0x0a, 0x3d, 0x6f,
            0x7b, 0xcb, 0x60, 0xd9, 0x2b, 0x00, 0x50, 0x4b,
            0x81, 0x99, 0x61, 0x36, 0x83, 0xf0, 0xc2, 0x00]
    | 3 => [0x20, 0x12, 0x1e, 0xe8, 0x11, 0x48, 0x9f, 0xf8,
            0xd6, 0x1f, 0x09, 0xfb, 0x89, 0xe3, 0x13, 0xf1,
            0x49, 0x59, 0xa0, 0xf2, 0x8b, 0xb4, 0x28, 0xa2,
            0x0d, 0xba, 0x6b, 0x0b, 0x06, 0x8b, 0x3b, 0xdb]
    | _ => ZERO_VALUE

/-- Core of the unbounded search loop of is_known_root, with explicit fuel.
The source loop checks roots[i], steps i backwards with wraparound, and breaks
(returning false) when i returns to current_root_index; when that index is
below ROOT_HISTORY_SIZE the loop performs exactly ROOT_HISTORY_SIZE checks, so
fuel ROOT_HISTORY_SIZE makes the fuel-exhaustion branch unreachable. -/
def knownRootAux (root : List Nat) (roots : List (List Nat)) (cri : Nat) :
    Nat → Nat → Bool
  | _, 0 => false
  | i, fuel + 1 =>
    if root = roots.getD i z32 then true
    else if (if i = 0 then ROOT_HISTORY_SIZE - 1 else i - 1) = cri then false
    else knownRootAux root roots cri (if i = 0 then ROOT_HISTORY_SIZE - 1 else i - 1) fuel

/-- is_known_root from src/merkle_tree.rs. -/
def is_known_root (root : List Nat) (roots : List (List Nat)) (cri : Nat) : Bool :=
  if root.all (fun x => x == 0) then false
  else knownRootAux root roots cri cri ROOT_HISTORY_SIZE

/-- The level loop of insert_leaf: at each level an even current index stores
the running hash into filled_subtrees and pairs it with the zero value on the
right, an odd one pairs filled_subtrees[i] on the left with the running hash
on the right; a hash error is returned together with the (possibly already
mutated) subtree vector, exactly as the Rust mutation through `&mut` behaves. -/
def insertLoop (filled : List (List Nat)) (idx : Nat) (cur : List Nat)
    (i : Nat) : Nat → Except TornadoError (List Nat) × List (List Nat)
  | 0 => (.ok cur, filled)
  | levels + 1 =>
    if idx % 2 = 0 then
      let filled' := filled.set i cur
      match hash_left_right cur (get_zero_value i) with
      | .ok h => insertLoop filled' (idx / 2) h (i + 1) levels
      | .error e => (.error e, filled')
    else
      match hash_left_right (filled.getD i z32) cur with
      | .ok h => insertLoop filled (idx / 2) h (i + 1) levels
      | .error e => (.error e, filled)

/-- insert_leaf from src/merkle_tree.rs.  The result carries the returned
index (or error) together with the final values of the three `&mut`
parameters (filled_subtrees, roots, current_root_index).  The source computes
`2u32.pow(height as u32)`; the u32 power is embedded with its wrapping
(release-build) semantics as `2 ^ height % 2 ^ 32`: for height up to 31 this
is exactly `2 ^ height`, while for height 32 and above the power wraps to 0,
so every insert reports a full tree (under debug assertions the overflow
panics instead; in both build modes the level loop never runs there). -/
def insert_leaf (leaf : List Nat) (_currentIndex nextIndex : Nat) (height : Nat)
    (filled roots : List (List Nat)) (cri : Nat) :
    Except TornadoError Nat × List (List Nat) × List (List Nat) × Nat :=
  if 2 ^ height % 2 ^ 32 ≤ nextIndex then (.error .MerkleTreeFull, filled, roots, cri)
  else
    match insertLoop filled nextIndex leaf 0 height with
    | (.ok root, filled') =>
      let newRootIndex := (cri + 1) % ROOT_HISTORY_SIZE
      (.ok nextIndex, filled', roots.set newRootIndex root, newRootIndex)
    | (.error e, filled') => (.error e, filled', roots, cri)

/-- get_last_root from src/merkle_tree.rs. -/
def get_last_root (roots : List (List Nat)) (cri : Nat) : List Nat :=
  roots.getD cri z32

/-- commitment_exists from src/utils.rs. -/
def commitment_exists (commitments : List (List Nat)) (commitment : List Nat) : Bool :=
  commitments.any (fun c => c = commitment)

/-- nullifier_hash_exists from src/utils.rs. -/
def nullifier_hash_exists (nullifierHashes : List (List Nat)) (nullifierHash : List Nat) : Bool :=
  nullifierHashes.any (fun n => n = nullifierHash)

/-- add_commitment from src/utils.rs, returning the grown vector. -/
def add_commitment (commitments : List (List Nat)) (commitment : List Nat) :
    Except TornadoError (List (List Nat)) :=
  if commitment_exists commitments commitment then .error .CommitmentAlreadyExists
  else .ok (commitments ++ [commitment])

/-- add_nullifier_hash from src/utils.rs, returning the grown vector. -/
def add_nullifier_hash (nullifierHashes : List (List Nat)) (nullifierHash : List Nat) :
    Except TornadoError (List (List Nat)) :=
  if nullifier_hash_exists nullifierHashes nullifierHash then .error .NullifierAlreadySpent
  else .ok (nullifierHashes ++ [nullifierHash])

/-- Models the host system-program lamport transfer performed by transfer_sol
of src/utils.rs (the transfer primitive itself is the ledger's, outside this
repository): it moves `amount` from the first balance to the second and fails
when the source balance is insufficient. -/
def transferSol (fromBal toBal amount : Nat) : Except TornadoError (Nat × Nat) :=
  if fromBal < amount then .error .InsufficientFunds
  else .ok (fromBal - amount, toBal + amount)

/-- TornadoInstance state of src/state.rs; the two pubkeys are modelled as
opaque numeric identities. -/
structure TornadoInstanceState where
  isInitialized : Bool
  denomination : Nat
  merkleTreeHeight : Nat
  merkleTree : Nat
  verifier : Nat
  deriving DecidableEq, Repr

/-- MerkleTree state of src/state.rs. -/
structure MerkleTreeState where
  isInitialized : Bool
  height : Nat
  currentIndex : Nat
  nextIndex : Nat
  currentRootIndex : Nat
  roots : List (List Nat)
  filledSubtrees : List (List Nat)
  nullifierHashes : List (List Nat)
  commitments : List (List Nat)
  deriving DecidableEq, Repr

/-- Little-endian byte encoding of width `w` (`to_le_bytes`, `Pubkey.to_bytes`). -/
def leBytes : Nat → Nat → List Nat
  | 0, _ => []
  | w + 1, n => n % 256 :: leBytes w (n / 256)

/-- Little-endian integer value of a byte list. -/
def leVal : List Nat → Nat
  | [] => 0
  | b :: bs => b + 256 * leVal bs

/-- The order of the BN254 scalar field Fr (the modulus used by arkworks'
`Fr::from_le_bytes_mod_order` in src/verifier.rs); this is the spec's prime p. -/
def FrOrder : Nat :=
  21888242871839275222246405745257275088548364400416034343698204186575808495617

/-- Rust `slice[a..b]` of a byte list. -/
def sliceBytes (l : List Nat) (a b : Nat) : List Nat := (l.drop a).take (b - a)

/-- extract_field_element from src/verifier.rs: a 32-byte length check, then
`Fr::from_le_bytes_mod_order`, which interprets the bytes little-endian and
reduces modulo the field order (the preceding `repr.read_le` never fails on a
32-byte slice, so it adds no rejection). -/
def extract_field_element (data : List Nat) : Except TornadoError Nat :=
  if data.length ≠ 32 then .error .InvalidProof
  else .ok (leVal data % FrOrder)

/-- The eight extract_field_element calls of deserialize_proof
(src/verifier.rs lines 61-68), in source order. -/
def proof_elements (proofData : List Nat) :
    Except TornadoError (Nat × Nat × Nat × Nat × Nat × Nat × Nat × Nat) := do
  let ax ← extract_field_element (sliceBytes proofData 0 32)
  let ay ← extract_field_element (sliceBytes proofData 32 64)
  let b11 ← extract_field_element (sliceBytes proofData 64 96)
  let b12 ← extract_field_element (sliceBytes proofData 96 128)
  let b21 ← extract_field_element (sliceBytes proofData 128 160)
  let b22 ← extract_field_element (sliceBytes proofData 160 192)
  let cx ← extract_field_element (sliceBytes proofData 192 224)
  let cy ← extract_field_element (sliceBytes proofData 224 256)
  pure (ax, ay, b11, b12, b21, b22, cx, cy)

/-- deserialize_proof from src/verifier.rs.  The `G1Affine::new` and
`G2Affine::new` constructors are arkworks library code outside this
repository; they are taken as parameters returning `Option` (`none` models a
panicking assertion inside the constructor), so every theorem about this
function holds for every possible constructor behaviour.  Whatever the
parameters do, the only error-returning checks in the source are the length
check and the extract_field_element calls. -/
def deserialize_proof (g1New : Nat → Nat → Option (Nat × Nat))
    (g2New : Nat → Nat → Nat → Nat → Option ((Nat × Nat) × (Nat × Nat)))
    (proofData : List Nat) :
    Option (Except TornadoError ((Nat × Nat) × ((Nat × Nat) × (Nat × Nat)) × (Nat × Nat))) :=
  if proofData.length ≠ 256 then some (.error .InvalidProof)
  else
    match proof_elements proofData with
    | .error e => some (.error e)
    | .ok (ax, ay, b11, b12, b21, b22, cx, cy) =>
      match g1New ax ay with
      | none => none
      | some a =>
        match g2New b11 b12 b21 b22 with
        | none => none
        | some b =>
          match g1New cx cy with
          | none => none
          | some c => some (.ok (a, b, c))

/-- deserialize_public_inputs from src/verifier.rs: six 32-byte windows, each
through extract_field_element. -/
def deserialize_public_inputs (data : List Nat) : Except TornadoError (List Nat) :=
  (List.range 6).foldlM
    (fun acc i => (extract_field_element (sliceBytes data (i * 32) (i * 32 + 32))).map
      (fun x => acc ++ [x])) []

/-- Rust `dst[start..stop].copy_from_slice(src)`: the copy when the lengths
agree, a panic (`none`) otherwise. -/
def copy_from_slice (dst : List Nat) (start stop : Nat) (src : List Nat) :
    Option (List Nat) :=
  if src.length = stop - start then some (dst.take start ++ src ++ dst.drop stop)
  else none

/-- The public-input assembly block of process_withdraw (src/processor.rs
lines 305-312): a 192-byte buffer filled by six copy_from_slice calls, where
fee and refund contribute `to_le_bytes()` of a u64, i.e. 8 bytes. -/
def assemble_public_inputs (root nullifierHash : List Nat)
    (recipient relayer fee refund : Nat) : Option (List Nat) :=
  (copy_from_slice (List.replicate 192 0) 0 32 root).bind fun b1 =>
  (copy_from_slice b1 32 64 nullifierHash).bind fun b2 =>
  (copy_from_slice b2 64 96 (leBytes 32 recipient)).bind fun b3 =>
  (copy_from_slice b3 96 128 (leBytes 32 relayer)).bind fun b4 =>
  (copy_from_slice b4 128 160 (leBytes 8 fee)).bind fun b5 =>
  copy_from_slice b5 160 192 (leBytes 8 refund)

/-- process_initialize from src/processor.rs: the zero-data re-initialization
check, then the instance record is built and serialized.  The two
program-derived addresses come from the host's find_program_address and are
taken as parameters.  No validation of denomination or height is present in
the source. -/
def process_initialize (denomination : Nat) (merkleTreeHeight : Nat)
    (accountData : List Nat) (merkleTreeKey verifierKey : Nat) :
    Except TornadoError TornadoInstanceState :=
  if (accountData.all (fun x => x == 0)) = false then .error .AccountAlreadyInitialized
  else .ok ⟨true, denomination, merkleTreeHeight, merkleTreeKey, verifierKey⟩

/-- process_deposit from src/processor.rs.  Errors abort the transaction, and
the host ledger rolls every prior effect back, so the error results carry no
post-state; the success result carries the new tree state and the payer and
pool balances after the denomination transfer. -/
def process_deposit (commitment : List Nat) (inst : TornadoInstanceState)
    (merkleTreeKey : Nat) (tree : MerkleTreeState) (payerBal poolBal : Nat) :
    Except TornadoError (MerkleTreeState × Nat × Nat) :=
  if inst.isInitialized = false then .error .AccountNotInitialized
  else if inst.merkleTree ≠ merkleTreeKey then .error .InvalidAccountData
  else if commitment_exists tree.commitments commitment then .error .CommitmentAlreadyExists
  else
    match transferSol payerBal poolBal inst.denomination with
    | .error e => .error e
    | .ok (payerBal1, poolBal1) =>
      match insert_leaf commitment tree.currentIndex tree.nextIndex tree.height
          tree.filledSubtrees tree.roots tree.currentRootIndex with
      | (.error e, _, _, _) => .error e
      | (.ok _insertedIndex, filled1, roots1, cri1) =>
        match add_commitment tree.commitments commitment with
        | .error e => .error e
        | .ok commitments1 =>
          .ok ({ tree with
                   filledSubtrees := filled1
                   roots := roots1
                   currentRootIndex := cri1
                   nextIndex := tree.nextIndex + 1
                   commitments := commitments1 },
               payerBal1, poolBal1)

/-- Withdraw instruction payload (src/instruction.rs), pubkeys as numbers. -/
structure WithdrawArgs where
  proof : List Nat
  root : List Nat
  nullifierHash : List Nat
  recipient : Nat
  relayer : Nat
  fee : Nat
  refund : Nat
  deriving Repr

/-- Keys of the accounts passed to a withdraw. -/
structure WithdrawAccounts where
  merkleTreeKey : Nat
  recipientKey : Nat
  relayerKey : Nat
  deriving Repr

/-- process_withdraw from src/processor.rs.  The Groth16 verification
(arkworks library code) is a parameter `verify`; `none` anywhere models a
panic.  As with deposit, error results abort the transaction and the host
rolls back, so they carry no post-state; the success result carries the new
tree state and the pool, recipient and relayer balances. -/
def process_withdraw (verify : List Nat → List Nat → Option (Except TornadoError Bool))
    (a : WithdrawArgs) (inst : TornadoInstanceState) (accs : WithdrawAccounts)
    (tree : MerkleTreeState) (poolBal recipientBal relayerBal : Nat) :
    Option (Except TornadoError (MerkleTreeState × Nat × Nat × Nat)) :=
  if inst.isInitialized = false then some (.error .AccountNotInitialized)
  else if inst.merkleTree ≠ accs.merkleTreeKey then some (.error .InvalidAccountData)
  else if a.recipient ≠ accs.recipientKey then some (.error .InvalidRecipient)
  else if a.relayer ≠ accs.relayerKey then some (.error .InvalidRelayer)
  else if inst.denomination < a.fee then some (.error .InvalidFee)
  else if a.refund ≠ 0 then some (.error .InvalidAmount)
  else if nullifier_hash_exists tree.nullifierHashes a.nullifierHash then
    some (.error .NullifierAlreadySpent)
  else if is_known_root a.root tree.roots tree.currentRootIndex = false then
    some (.error .InvalidMerkleRoot)
  else
    match assemble_public_inputs a.root a.nullifierHash a.recipient a.relayer
        a.fee a.refund with
    | none => none
    | some publicInputs =>
      match verify a.proof publicInputs with
      | none => none
      | some (.error e) => some (.error e)
      | some (.ok valid) =>
        if valid = false then some (.error .InvalidProof)
        else
          match add_nullifier_hash tree.nullifierHashes a.nullifierHash with
          | .error e => some (.error e)
          | .ok nullifierHashes1 =>
            match transferSol poolBal recipientBal (inst.denomination - a.fee) with
            | .error e => some (.error e)
            | .ok (poolBal1, recipientBal1) =>
              if 0 < a.fee then
                match transferSol poolBal1 relayerBal a.fee with
                | .error e => some (.error e)
                | .ok (poolBal2, relayerBal1) =>
                  some (.ok ({ tree with nullifierHashes := nullifierHashes1 },
                             poolBal2, recipientBal1, relayerBal1))
              else
                some (.ok ({ tree with nullifierHashes := nullifierHashes1 },
                           poolBal1, recipientBal1, relayerBal))

/-- Running hash of the insertion loop described by the specification, reading
the pre-insertion filled_subtrees: after `i` levels the value is `leaf` hashed
upwards, where at level `i` an even current index `nextIndex / 2 ^ i` pairs
the running hash with the zero value on the right and an odd one pairs
filled_subtrees[i] on the left.  During one insertion the loop writes
filled_subtrees only at levels where the index is even and reads it only at
levels where the index is odd, so reading the pre-insertion vector is
faithful. -/
def specCur (leaf : List Nat) (filled : List (List Nat)) (index : Nat) :
    Nat → Except TornadoError (List Nat)
  | 0 => .ok leaf
  | i + 1 =>
    match specCur leaf filled index i with
    | .error e => .error e
    | .ok cur =>
      if index / 2 ^ i % 2 = 0 then hash_left_right cur (get_zero_value i)
      else hash_left_right (filled.getD i z32) cur

/-- Value of an Except with a fallback for the error case. -/
def exceptD (x : Except TornadoError (List Nat)) (d : List Nat) : List Nat :=
  match x with
  | .ok v => v
  | .error _ => d

/-- The filled_subtrees vector after the first `n` levels of the insertion
loop described by the specification: at each level with an even current index
the running hash entering that level is stored at that position. -/
def specFilled (leaf : List Nat) (filled : List (List Nat)) (index : Nat) :
    Nat → List (List Nat)
  | 0 => filled
  | i + 1 =>
    let f := specFilled leaf filled index i
    if index / 2 ^ i % 2 = 0 then f.set i (exceptD (specCur leaf filled index i) z32)
    else f

/-- A sample 32-byte value with every byte 1. -/
def ones32 : List Nat := List.replicate 32 1

/-- A sample root history holding one distinguished entry. -/
def roots30 : List (List Nat) := (List.replicate 30 z32).set 3 ones32

/-- A sample initialized pool instance: denomination 100, height 1, merkle
tree key 7, verifier key 9. -/
def instSample : TornadoInstanceState := ⟨true, 100, 1, 7, 9⟩

/-- A sample empty height-1 tree. -/
def treeH1 : MerkleTreeState :=
  ⟨true, 1, 0, 0, 0, List.replicate 30 z32, [z32], [], []⟩

/-- A sample height-0 tree (one leaf capacity), for exercising the success
path of insert_leaf, whose level loop is empty at height 0. -/
def treeH0 : MerkleTreeState :=
  ⟨true, 0, 0, 0, 0, List.replicate 30 z32, [], [], []⟩

/-- A sample height-0 tree whose single leaf is already taken. -/
def treeH0full : MerkleTreeState :=
  ⟨true, 0, 0, 1, 1, (List.replicate 30 z32).set 1 ones32, [], [], [ones32]⟩

/-- A sample tree whose nullifier set already contains ones32. -/
def treeSpent : MerkleTreeState :=
  ⟨true, 1, 0, 1, 1, (List.replicate 30 z32).set 1 ones32, [z32], [ones32], []⟩

/-- A withdraw request whose nullifier hash is ones32, matching the sample
accounts below. -/
def argsSpent : WithdrawArgs := ⟨List.replicate 256 0, ones32, ones32, 20, 21, 0, 0⟩

/-- Accounts matching argsSpent and instSample. -/
def accsSample : WithdrawAccounts := ⟨7, 20, 21⟩

/-- A verifier oracle that accepts everything (used only to show that the
results below do not depend on the verifier). -/
def verifyAlways : List Nat → List Nat → Option (Except TornadoError Bool) :=
  fun _ _ => some (.ok true)

/-- A 256-byte proof blob whose first coordinate is the little-endian encoding
of the field order itself, i.e. a non-canonical field element. -/
def badProof : List Nat := leBytes 32 FrOrder ++ List.replicate 224 0

theorem leBytes_length (w n : Nat) : (leBytes w n).length = w := by
  induction w generalizing n with
  | zero => rfl
  | succ w ih => simp [leBytes, ih]

theorem assemble_public_inputs_eq_none (root nullifierHash : List Nat)
    (recipient relayer fee refund : Nat) :
    assemble_public_inputs root nullifierHash recipient relayer fee refund = none := by
  unfold assemble_public_inputs copy_from_slice
  simp [leBytes_length]

/-- Claim C3: the deposit path never raises a malformed-commitment error and
its canonicity test is_within_field accepts the modulus encoding FIELD_SIZE
itself (the comparison is non-strict).  A deposit of the commitment p on a
fresh initialized height-1 pool runs the payer transfer and then fails inside
insert_leaf with InvalidMerkleTreeState, which is raised because the zero
sibling ZERO_VALUE itself fails is_within_field, not because the commitment
is non-canonical; the error differs from InvalidCommitment, the only
malformed-commitment error in the program's error enum. -/
theorem claim_C3_deposit_of_modulus :
    is_within_field FIELD_SIZE = true ∧
    process_deposit FIELD_SIZE instSample 7 treeH1 1000 0 =
      .error .InvalidMerkleTreeState ∧
    TornadoError.InvalidMerkleTreeState ≠ TornadoError.InvalidCommitment := by
  refine ⟨by decide, by rfl, by decide⟩

/-- Claim C5: the zero-subtree recurrence fails.  The claimed identity
Z[1] = H(Z[0], Z[0]) cannot hold for any value because hash_left_right
rejects ZERO_VALUE itself (it fails the is_within_field comparison), and
every level from 4 up reuses ZERO_VALUE instead of hashing the previous
level. -/
theorem claim_C5_zero_table :
    hash_left_right (get_zero_value 0) (get_zero_value 0) =
      .error .InvalidMerkleTreeState ∧
    is_within_field (get_zero_value 0) = false ∧
    get_zero_value 4 = ZERO_VALUE ∧ get_zero_value 5 = ZERO_VALUE := by
  refine ⟨by rfl, by decide, by rfl, by rfl⟩

/-- Claim C6: the public-input assembly of process_withdraw is not total; it
panics for every input, because the 8-byte little-endian encodings of the
u64 fee and refund are copied into 32-byte destination slices and Rust's
copy_from_slice aborts on the length mismatch.  No 192-byte vector is ever
produced. -/
theorem claim_C6_assembly_panics (root nullifierHash : List Nat)
    (recipient relayer fee refund : Nat) :
    assemble_public_inputs root nullifierHash recipient relayer fee refund = none ∧
    (leBytes 8 fee).length = 8 :=
  ⟨assemble_public_inputs_eq_none root nullifierHash recipient relayer fee refund,
   leBytes_length 8 fee⟩

/-- Claim C7: decoding does not reject out-of-range public-input encodings;
extract_field_element silently reduces modulo the field order.  The 32-byte
little-endian encoding of the order itself decodes to Ok 0, the encoding of
order + 1 decodes to Ok 1, and the canonical encoding of 1 also decodes to
Ok 1, so two distinct encodings of the residue 1 are both accepted. -/
theorem claim_C7_silent_reduction :
    extract_field_element (leBytes 32 FrOrder) = .ok 0 ∧
    extract_field_element (leBytes 32 (FrOrder + 1)) = .ok 1 ∧
    extract_field_element (leBytes 32 1) = .ok 1 ∧
    leBytes 32 (FrOrder + 1) ≠ leBytes 32 1 := by
  refine ⟨by rfl, by rfl, by rfl, by decide⟩

/-- Claim C8: for a 256-byte proof whose first coordinate is the non-canonical
encoding of the field order, deserialization never returns a malformed-proof
error, whatever the (library) point constructors do with the reduced
coordinates: the only error branches in deserialize_proof are the length
check (second conjunct) and the extract_field_element calls, which accept
non-canonical bytes by reducing them (third conjunct).  Curve and subgroup
membership have no error branch at all. -/
theorem claim_C8_deserialize_no_error :
    (∀ (g1New : Nat → Nat → Option (Nat × Nat))
       (g2New : Nat → Nat → Nat → Nat → Option ((Nat × Nat) × (Nat × Nat)))
       (e : TornadoError), deserialize_proof g1New g2New badProof ≠ some (.error e)) ∧
    (∀ (g1New : Nat → Nat → Option (Nat × Nat))
       (g2New : Nat → Nat → Nat → Nat → Option ((Nat × Nat) × (Nat × Nat))),
       deserialize_proof g1New g2New (List.replicate 128 0) = some (.error .InvalidProof)) ∧
    proof_elements badProof = .ok (0, 0, 0, 0, 0, 0, 0, 0) := by
  have hlen : badProof.length = 256 := by rfl
  have helts : proof_elements badProof = .ok (0, 0, 0, 0, 0, 0, 0, 0) := by rfl
  refine ⟨?_, ?_, helts⟩
  · intro g1New g2New e h
    unfold deserialize_proof at h
    rw [hlen, helts] at h
    simp only [ne_eq, not_true_eq_false, if_false, reduceCtorEq] at h
    cases hg1 : g1New 0 0 with
    | none => rw [hg1] at h; simp at h
    | some a =>
      cases hg2 : g2New 0 0 0 0 with
      | none => rw [hg1, hg2] at h; simp at h
      | some b => rw [hg1, hg2] at h; simp at h
  · intro g1New g2New
    rfl

/-- Claim C9: process_initialize performs no parameter validation.  With a
zeroed state region it accepts denomination 0 and it accepts height 33,
writing an initialized pool record in both cases, instead of the
invalid-parameter failure the specification requires. -/
theorem claim_C9_no_parameter_validation :
    process_initialize 0 0 (List.replicate 74 0) 7 9 = .ok ⟨true, 0, 0, 7, 9⟩ ∧
    process_initialize 0 33 (List.replicate 74 0) 7 9 = .ok ⟨true, 0, 33, 7, 9⟩ := by
  refine ⟨by rfl, by rfl⟩

/-- Claim C10: hash_left_right does not return a canonical value for all
canonical inputs; it fails outright on the canonical pair (1...1, 2...2)
(both strictly below the scalar-field modulus p = FrOrder), because its
is_within_field test compares bytes against the FIELD_SIZE constant in the
wrong byte order.  This is the very call the source's own unit test
test_hash_left_right unwraps. -/
theorem claim_C10_hash_fails_on_canonical :
    hash_left_right ones32 (List.replicate 32 2) = .error .InvalidMerkleTreeState ∧
    leVal ones32 < FrOrder ∧ leVal (List.replicate 32 2) < FrOrder := by
  refine ⟨by rfl, by decide, by decide⟩

theorem all_zero_eq_replicate (l : List Nat) :
    (l.all fun x => x == 0) = true → l = List.replicate l.length 0 := by
  induction l with
  | nil => intro _; rfl
  | cons a as ih =>
    intro h
    rw [List.all_cons, Bool.and_eq_true] at h
    obtain ⟨h1, h2⟩ := h
    have ha : a = 0 := by simpa using h1
    subst ha
    simp only [List.length_cons, List.replicate_succ, List.cons.injEq, true_and]
    exact ih h2

theorem getD_set_of_ne {α : Type} (l : List α) (i j : Nat) (v d : α) (h : i ≠ j) :
    (l.set i v).getD j d = l.getD j d := by
  simp [List.getD_eq_getElem?_getD, List.getElem?_set_ne h]

theorem specCur_error (leaf : List Nat) (filled : List (List Nat)) (index : Nat)
    (k : Nat) (e : TornadoError) (h : specCur leaf filled index k = .error e) :
    ∀ m, k ≤ m → specCur leaf filled index m = .error e := by
  intro m
  induction m with
  | zero => intro hm; have hk : k = 0 := by omega
            subst hk; exact h
  | succ m ih =>
    intro hm
    by_cases hk : k = m + 1
    · subst hk; exact h
    · have hmono := ih (by omega)
      simp [specCur, hmono]

/-- Claim C2: the nullifier set only grows and double spends are refused.
The only operation anywhere that writes the nullifier set is
add_nullifier_hash, which appends one element when it succeeds (first
conjunct) and fails with NullifierAlreadySpent on a present element (second
conjunct); a withdraw whose nullifier hash is already recorded fails with
NullifierAlreadySpent (third conjunct) - an error aborts the transaction, so
the host ledger leaves tree state and all balances unchanged and no transfer
occurs; and a successful deposit leaves the nullifier set untouched (fourth
conjunct). -/
theorem claim_C2_nullifier_monotone
    (verify : List Nat → List Nat → Option (Except TornadoError Bool))
    (a : WithdrawArgs) (inst : TornadoInstanceState) (accs : WithdrawAccounts)
    (tree : MerkleTreeState) (poolBal recipientBal relayerBal : Nat) :
    (∀ (s : List (List Nat)) (nh : List Nat) (out : List (List Nat)),
        add_nullifier_hash s nh = .ok out → out = s ++ [nh]) ∧
    (∀ (s : List (List Nat)) (nh : List Nat),
        nullifier_hash_exists s nh = true →
        add_nullifier_hash s nh = .error .NullifierAlreadySpent) ∧
    (inst.isInitialized = true → inst.merkleTree = accs.merkleTreeKey →
     a.recipient = accs.recipientKey → a.relayer = accs.relayerKey →
     a.fee ≤ inst.denomination → a.refund = 0 →
     nullifier_hash_exists tree.nullifierHashes a.nullifierHash = true →
     process_withdraw verify a inst accs tree poolBal recipientBal relayerBal =
       some (.error .NullifierAlreadySpent)) ∧
    (∀ (commitment : List Nat) (inst2 : TornadoInstanceState)
       (merkleTreeKey payerBal poolBal2 : Nat) (tree2 tree' : MerkleTreeState)
       (b1 b2 : Nat),
        process_deposit commitment inst2 merkleTreeKey tree2 payerBal poolBal2 =
          .ok (tree', b1, b2) →
        tree'.nullifierHashes = tree2.nullifierHashes) := by
  refine ⟨?_, ?_, ?_, ?_⟩
  · intro s nh out h
    unfold add_nullifier_hash at h
    split at h
    · exact Except.noConfusion h
    · exact (Except.ok.inj h).symm
  · intro s nh h
    unfold add_nullifier_hash
    rw [if_pos h]
  · intro h1 h2 h3 h4 h5 h6 h7
    unfold process_withdraw
    rw [h1, h2, h3, h4, h6, h7]
    simp [Nat.not_lt.mpr h5]
  · intro c inst2 k pb pb2 tree2 tree' b1 b2 h
    unfold process_deposit at h
    split at h
    · exact Except.noConfusion h
    split at h
    · exact Except.noConfusion h
    split at h
    · exact Except.noConfusion h
    split at h
    · exact Except.noConfusion h
    split at h
    · exact Except.noConfusion h
    split at h
    · exact Except.noConfusion h
    · obtain ⟨ht, _⟩ := Prod.mk.injEq .. ▸ Except.ok.inj h
      rw [← ht]

/-- Witness for claim C2 at concrete inputs: a withdraw whose nullifier hash
ones32 is already in the set fails with NullifierAlreadySpent even under an
always-accepting verifier; add_nullifier_hash appends on success and refuses
a present element; a successful height-0 deposit leaves the nullifier set
unchanged. -/
theorem claim_C2_witness :
    process_withdraw verifyAlways argsSpent instSample accsSample treeSpent 1000 0 0 =
      some (.error .NullifierAlreadySpent) ∧
    ([ones32] : List (List Nat)) = [] ++ [ones32] ∧
    add_nullifier_hash [ones32] ones32 = .error .NullifierAlreadySpent ∧
    treeH0full.nullifierHashes = treeH0.nullifierHashes := by
  have T := claim_C2_nullifier_monotone verifyAlways argsSpent instSample accsSample
    treeSpent 1000 0 0
  refine ⟨T.2.2.1 rfl rfl rfl rfl (by decide) rfl (by decide),
          T.1 [] ones32 [ones32] rfl,
          T.2.1 [ones32] ones32 (by decide),
          T.2.2.2 ones32 instSample 7 1000 0 treeH0 treeH0full 900 100 (by rfl)⟩

theorem knownRootAux_iff (root : List Nat) (roots : List (List Nat)) (cri : Nat)
    (hcri : cri < 30) :
    ∀ (fuel i : Nat), i < 30 → (i + 30 - cri - 1) % 30 + 1 ≤ fuel →
      (knownRootAux root roots cri i fuel = true ↔
        ∃ t, t ≤ (i + 30 - cri - 1) % 30 ∧ root = roots.getD ((i + 30 - t) % 30) z32) := by
  intro fuel
  induction fuel with
  | zero => intro i _ hb; exact absurd hb (by omega)
  | succ fuel ih =>
    intro i hi hb
    simp only [knownRootAux]
    by_cases hroot : root = roots.getD i z32
    · rw [if_pos hroot]
      constructor
      · intro _
        refine ⟨0, Nat.zero_le _, ?_⟩
        rw [show (i + 30 - 0) % 30 = i from by omega]
        exact hroot
      · intro _; rfl
    · rw [if_neg hroot]
      have hR : ROOT_HISTORY_SIZE - 1 = 29 := rfl
      rw [hR]
      have hjf : (i = 0 ∧ (if i = 0 then 29 else i - 1) = 29) ∨
          (i ≠ 0 ∧ (if i = 0 then 29 else i - 1) = i - 1) := by
        by_cases h0 : i = 0
        · exact Or.inl ⟨h0, if_pos h0⟩
        · exact Or.inr ⟨h0, if_neg h0⟩
      by_cases hjc : (if i = 0 then 29 else i - 1) = cri
      · rw [if_pos hjc]
        have hs : (i + 30 - cri - 1) % 30 = 0 := by
          rcases hjf with ⟨h0, hj⟩ | ⟨h0, hj⟩ <;> omega
        constructor
        · intro hfalse; exact absurd hfalse (by simp)
        · rintro ⟨t, ht, hr⟩
          rw [hs] at ht
          have ht0 : t = 0 := by omega
          subst ht0
          rw [show (i + 30 - 0) % 30 = i from by omega] at hr
          exact absurd hr hroot
      · rw [if_neg hjc]
        have hjlt : (if i = 0 then 29 else i - 1) < 30 := by
          rcases hjf with ⟨h0, hj⟩ | ⟨h0, hj⟩ <;> omega
        have hsj : ((if i = 0 then 29 else i - 1) + 30 - cri - 1) % 30 + 1 =
            (i + 30 - cri - 1) % 30 := by
          rcases hjf with ⟨h0, hj⟩ | ⟨h0, hj⟩ <;> omega
        rw [ih (if i = 0 then 29 else i - 1) hjlt (by omega)]
        constructor
        · rintro ⟨t, ht, hr⟩
          refine ⟨t + 1, by omega, ?_⟩
          rw [show (i + 30 - (t + 1)) % 30 =
              ((if i = 0 then 29 else i - 1) + 30 - t) % 30 from by
            rcases hjf with ⟨h0, hj⟩ | ⟨h0, hj⟩ <;> omega]
          exact hr
        · rintro ⟨t, ht, hr⟩
          cases t with
          | zero =>
            rw [show (i + 30 - 0) % 30 = i from by omega] at hr
            exact absurd hr hroot
          | succ t' =>
            refine ⟨t', by omega, ?_⟩
            rw [show ((if i = 0 then 29 else i - 1) + 30 - t') % 30 =
                (i + 30 - (t' + 1)) % 30 from by
              rcases hjf with ⟨h0, hj⟩ | ⟨h0, hj⟩ <;> omega]
            exact hr

/-- Claim C4: is_known_root returns false on the all-zero encoding, and for
any other 32-byte value it returns true exactly when the value sits in one of
the 30 ring-buffer slots (the backward walk from current_root_index visits
all 30 positions before it breaks). -/
theorem claim_C4_is_known_root (root : List Nat) (roots : List (List Nat)) (cri : Nat)
    (hlen : root.length = 32) (hroots : roots.length = 30) (hcri : cri < 30) :
    (root = z32 → is_known_root root roots cri = false) ∧
    (root ≠ z32 →
      (is_known_root root roots cri = true ↔
        ∃ k, k < 30 ∧ root = roots.getD k z32)) := by
  constructor
  · intro h; subst h; rfl
  · intro hne
    have hall : (root.all fun x => x == 0) = false := by
      cases hcase : root.all fun x => x == 0
      · rfl
      · exfalso
        apply hne
        have h := all_zero_eq_replicate root hcase
        rwa [hlen] at h
    unfold is_known_root
    rw [hall]
    have hR : ROOT_HISTORY_SIZE = 30 := rfl
    simp only [Bool.false_eq_true, if_false]
    rw [hR, knownRootAux_iff root roots cri hcri 30 cri hcri (by omega)]
    constructor
    · rintro ⟨t, ht, hr⟩
      have hs : (cri + 30 - cri - 1) % 30 = 29 := by omega
      exact ⟨(cri + 30 - t) % 30, by omega, hr⟩
    · rintro ⟨k, hk, hr⟩
      refine ⟨(cri + 30 - k) % 30, by omega, ?_⟩
      rw [show (cri + 30 - (cri + 30 - k) % 30) % 30 = k from by omega]
      exact hr

/-- Witness for claim C4 at concrete inputs: ones32 sits in slot 3 of the
sample ring buffer and is found from current_root_index 5; the all-zero root
is refused. -/
theorem claim_C4_witness :
    is_known_root ones32 roots30 5 = true ∧ is_known_root z32 roots30 5 = false := by
  refine ⟨((claim_C4_is_known_root ones32 roots30 5 (by decide) (by decide)
      (by omega)).2 (by decide)).mpr ⟨3, by omega, by decide⟩,
    (claim_C4_is_known_root z32 roots30 5 (by decide) (by decide) (by omega)).1 rfl⟩

theorem insertLoop_spec (leaf : List Nat) (filled : List (List Nat)) (index : Nat) :
    ∀ (n i : Nat) (f : List (List Nat)) (cur : List Nat),
      specCur leaf filled index i = .ok cur →
      (∀ j, i ≤ j → f.getD j z32 = filled.getD j z32) →
      (insertLoop f (index / 2 ^ i) cur i n).1 = specCur leaf filled index (i + n) ∧
      (f = specFilled leaf filled index i →
        ∀ root, specCur leaf filled index (i + n) = .ok root →
          (insertLoop f (index / 2 ^ i) cur i n).2 = specFilled leaf filled index (i + n)) := by
  intro n
  induction n with
  | zero =>
    intro i f cur hcur hinv
    constructor
    · simpa [insertLoop] using hcur.symm
    · intro hacc root _
      simpa [insertLoop] using hacc
  | succ n ih =>
    intro i f cur hcur hinv
    have hdiv : index / 2 ^ (i + 1) = index / 2 ^ i / 2 := by
      rw [Nat.pow_succ, Nat.div_div_eq_div_mul]
    by_cases hpar : index / 2 ^ i % 2 = 0
    · cases hh : hash_left_right cur (get_zero_value i) with
      | ok hval =>
        have hcur1 : specCur leaf filled index (i + 1) = .ok hval := by
          simp [specCur, hcur, hpar, hh]
        have hinv1 : ∀ j, i + 1 ≤ j → (f.set i cur).getD j z32 = filled.getD j z32 := by
          intro j hj
          rw [getD_set_of_ne _ _ _ _ _ (by omega)]
          exact hinv j (by omega)
        have IH := ih (i + 1) (f.set i cur) hval hcur1 hinv1
        rw [hdiv] at IH
        constructor
        · simp only [insertLoop, if_pos hpar, hh]
          rw [show i + (n + 1) = i + 1 + n from by omega]
          exact IH.1
        · intro hacc root hroot
          have hacc1 : f.set i cur = specFilled leaf filled index (i + 1) := by
            simp only [specFilled, if_pos hpar]
            rw [← hacc, hcur]
            rfl
          have hroot1 : specCur leaf filled index (i + 1 + n) = .ok root := by
            rw [show i + 1 + n = i + (n + 1) from by omega]
            exact hroot
          simp only [insertLoop, if_pos hpar, hh]
          rw [show i + (n + 1) = i + 1 + n from by omega]
          exact IH.2 hacc1 root hroot1
      | error e =>
        have hcur1 : specCur leaf filled index (i + 1) = .error e := by
          simp [specCur, hcur, hpar, hh]
        have herr : specCur leaf filled index (i + (n + 1)) = .error e :=
          specCur_error leaf filled index (i + 1) e hcur1 (i + (n + 1)) (by omega)
        constructor
        · simp only [insertLoop, if_pos hpar, hh]
          rw [herr]
        · intro hacc root hroot
          rw [herr] at hroot
          exact absurd hroot (by simp)
    · cases hh : hash_left_right (filled.getD i z32) cur with
      | ok hval =>
        have hcur1 : specCur leaf filled index (i + 1) = .ok hval := by
          simp only [specCur, hcur, if_neg hpar]
          exact hh
        have IH := ih (i + 1) f hval hcur1 (fun j hj => hinv j (by omega))
        rw [hdiv] at IH
        constructor
        · simp only [insertLoop, if_neg hpar, hinv i (Nat.le_refl i), hh]
          rw [show i + (n + 1) = i + 1 + n from by omega]
          exact IH.1
        · intro hacc root hroot
          have hacc1 : f = specFilled leaf filled index (i + 1) := by
            simp only [specFilled, if_neg hpar]
            exact hacc
          have hroot1 : specCur leaf filled index (i + 1 + n) = .ok root := by
            rw [show i + 1 + n = i + (n + 1) from by omega]
            exact hroot
          simp only [insertLoop, if_neg hpar, hinv i (Nat.le_refl i), hh]
          rw [show i + (n + 1) = i + 1 + n from by omega]
          exact IH.2 hacc1 root hroot1
      | error e =>
        have hcur1 : specCur leaf filled index (i + 1) = .error e := by
          simp only [specCur, hcur, if_neg hpar]
          exact hh
        have herr : specCur leaf filled index (i + (n + 1)) = .error e :=
          specCur_error leaf filled index (i + 1) e hcur1 (i + (n + 1)) (by omega)
        constructor
        · simp only [insertLoop, if_neg hpar, hinv i (Nat.le_refl i), hh]
          rw [herr]
        · intro hacc root hroot
          rw [herr] at hroot
          exact absurd hroot (by simp)

/-- Claim C1 counterexample: the claim fails at height 32, which the
specification allows.  The source's full-tree test computes 2u32.pow(32),
which overflows: the wrapping u32 power is 0, so inserting into an empty
height-32 tree - next_index 0, far below 2 ^ 32 - fails with MerkleTreeFull
and the level loop never runs, where the claim says the loop runs and only
next_index at least 2 ^ height is a tree-full failure (under debug
assertions the overflow panics instead of running the loop). -/
theorem claim_C1_pow_overflow :
    (0 : Nat) < 2 ^ 32 ∧
    insert_leaf z32 0 0 32 (List.replicate 32 z32) (List.replicate 30 z32) 0 =
      (.error .MerkleTreeFull, List.replicate 32 z32, List.replicate 30 z32, 0) :=
  ⟨by norm_num, by rfl⟩

/-- Claim C1 as amended: insert_leaf realizes the specified algorithm with
the tree-full bound computed as the wrapping 32-bit power 2 ^ height % 2 ^ 32
(the source's 2u32.pow(height)).  Whenever next_index reaches that wrapped
bound - in particular always, for height 32 and above, where it wraps to 0 -
the call fails with MerkleTreeFull and leaves filled_subtrees, roots and
current_root_index unchanged.  For height up to 31 the wrapped bound is
exactly 2 ^ height and the claimed behaviour holds verbatim: with
next_index < 2 ^ height the level loop described by specCur / specFilled
runs (even index: store the running hash in filled_subtrees[i] and hash it
with the zero value on the right; odd index: hash filled_subtrees[i] on the
left with the running hash on the right); when every level hash succeeds
with final root `root`, insert_leaf returns the original next_index,
advances current_root_index by one modulo ROOT_HISTORY_SIZE = 30, and stores
`root` there; when some level hash fails, it propagates that error and
leaves roots and current_root_index unchanged. -/
theorem claim_C1_insert_leaf (leaf : List Nat) (curIdx nextIndex height : Nat)
    (filled roots : List (List Nat)) (cri : Nat) :
    (2 ^ height % 2 ^ 32 ≤ nextIndex →
      insert_leaf leaf curIdx nextIndex height filled roots cri =
        (.error .MerkleTreeFull, filled, roots, cri)) ∧
    (height ≤ 31 → nextIndex < 2 ^ height →
      (∀ root, specCur leaf filled nextIndex height = .ok root →
        insert_leaf leaf curIdx nextIndex height filled roots cri =
          (.ok nextIndex, specFilled leaf filled nextIndex height,
           roots.set ((cri + 1) % ROOT_HISTORY_SIZE) root,
           (cri + 1) % ROOT_HISTORY_SIZE)) ∧
      (∀ e, specCur leaf filled nextIndex height = .error e →
        (insert_leaf leaf curIdx nextIndex height filled roots cri).1 = .error e ∧
        (insert_leaf leaf curIdx nextIndex height filled roots cri).2.2.1 = roots ∧
        (insert_leaf leaf curIdx nextIndex height filled roots cri).2.2.2 = cri)) := by
  have L := insertLoop_spec leaf filled nextIndex height 0 filled leaf rfl
    (fun j _ => rfl)
  rw [Nat.pow_zero, Nat.div_one] at L
  have hzero : (0 : Nat) + height = height := by omega
  rw [hzero] at L
  constructor
  · intro hfull
    unfold insert_leaf
    rw [if_pos hfull]
  · intro hheight hlt
    have hpow : 2 ^ height % 2 ^ 32 = 2 ^ height :=
      Nat.mod_eq_of_lt
        (lt_of_le_of_lt (Nat.pow_le_pow_right (by norm_num) hheight) (by norm_num))
    constructor
    · intro root hroot
      have h2 : (insertLoop filled nextIndex leaf 0 height).2 =
          specFilled leaf filled nextIndex height := L.2 rfl root hroot
      have h1 : (insertLoop filled nextIndex leaf 0 height).1 = .ok root := by
        rw [L.1, hroot]
      unfold insert_leaf
      rw [hpow, if_neg (by omega)]
      cases hE : insertLoop filled nextIndex leaf 0 height with
      | mk r1 r2 =>
        rw [hE] at h1 h2
        simp only at h1 h2
        subst h1
        subst h2
        rfl
    · intro e herr
      have h1 : (insertLoop filled nextIndex leaf 0 height).1 = .error e := by
        rw [L.1, herr]
      unfold insert_leaf
      rw [hpow, if_neg (by omega)]
      cases hE : insertLoop filled nextIndex leaf 0 height with
      | mk r1 r2 =>
        rw [hE] at h1
        simp only at h1
        subst h1
        exact ⟨rfl, rfl, rfl⟩

/-- Witness for the amended claim C1 at concrete inputs: a height-0 tree with
next_index 1 has reached the wrapped bound 2 ^ 0 % 2 ^ 32 = 1, so the insert
fails MerkleTreeFull and changes nothing; inserting into an empty height-0
tree succeeds, returns index 0, stores the root at slot (0+1) % 30 = 1 and
advances current_root_index to 1; at height 1 the level-0 hash against the
zero value fails and the error propagates with roots and current_root_index
unchanged. -/
theorem claim_C1_witness :
    insert_leaf z32 0 1 0 [] (List.replicate 30 z32) 0 =
      (.error .MerkleTreeFull, [], List.replicate 30 z32, 0) ∧
    insert_leaf z32 0 0 0 [] (List.replicate 30 z32) 0 =
      (.ok 0, [], (List.replicate 30 z32).set 1 z32, 1) ∧
    (insert_leaf z32 0 0 1 [z32] (List.replicate 30 z32) 0).1 =
      .error .InvalidMerkleTreeState := by
  refine ⟨(claim_C1_insert_leaf z32 0 1 0 [] (List.replicate 30 z32) 0).1 (by decide),
    ?_, ?_⟩
  · have h := ((claim_C1_insert_leaf z32 0 0 0 [] (List.replicate 30 z32) 0).2
      (by decide) (by decide)).1 z32 rfl
    simpa using h
  · exact (((claim_C1_insert_leaf z32 0 0 1 [z32] (List.replicate 30 z32) 0).2
      (by decide) (by decide)).2 .InvalidMerkleTreeState (by rfl)).1
